import Mathlib

/-!
Verification development for a notes-and-bookmarks backend
(Express routes for Note and Bookmark resources, a tag-normalization
pipeline shared by both, a Mongo-style list-query builder, and a
best-effort page-title metadata fetcher).

JavaScript strings are modelled as Lean String, working on the
underlying character list; absent request-body fields are modelled as
Option; the document store is modelled as a list of stored records.
Route handlers are translated statement by statement from the source;
only ASCII whitespace is modelled for the \s character class.
-/

/-- ASCII whitespace, the fragment of the JS regex class \s (and of
String.prototype.trim) that this embedding models. -/
def isWs (c : Char) : Bool :=
  c == ' ' || c == '\t' || c == '\n' || c == '\r' || c == '\x0b' || c == '\x0c'

/-- Characters matched by the tag-splitting regex class in
tags.split of the note and bookmark POST and PUT handlers:
comma, hash, or whitespace. -/
def isTagDelim (c : Char) : Bool :=
  c == ',' || c == '#' || isWs c

/-- Remove leading and trailing characters satisfying isWs. -/
def trimChars (l : List Char) : List Char :=
  (l.dropWhile isWs).rdropWhile isWs

/-- Model of JS String.prototype.trim. -/
def jsTrim (s : String) : String :=
  ⟨trimChars s.data⟩

/-- JS string truthiness test combined with blank test, as used by the
validation guards of the handlers: a string fails the guard
when it is empty or trims to empty. -/
def strBlank (s : String) : Bool :=
  s == "" || jsTrim s == ""

/-- Validation guard for a required string field that may be absent:
models !x || typeof x !== a string || !x.trim() for a field that is
either absent or a string. -/
def optStrBlank : Option String → Bool
  | none => true
  | some s => strBlank s

/-- Model of JS String.prototype.split on the regex of one-or-more
tag-delimiter characters.  The boolean argument records whether the
previous character was part of a delimiter run, so that a whole run
produces a single split point; a leading or trailing run still yields
an empty piece, exactly as the JS regex split does. -/
def jsSplitAux (p : Char → Bool) : List Char → List Char → Bool → List (List Char)
  | [], acc, _ => [acc]
  | c :: cs, acc, inRun =>
    if p c then
      if inRun then jsSplitAux p cs [] true
      else acc :: jsSplitAux p cs [] true
    else jsSplitAux p cs (acc ++ [c]) false

/-- JS s.split(re) where re matches runs of characters satisfying p. -/
def jsSplitRuns (p : Char → Bool) (s : String) : List String :=
  (jsSplitAux p s.data [] false).map (fun l => (⟨l⟩ : String))

/-- JS s.split on a literal comma, one split point per comma, as used
by the tag filter of the list handlers. -/
def splitCommaAux : List Char → List Char → List (List Char)
  | [], acc => [acc]
  | c :: cs, acc =>
    if c == ',' then acc :: splitCommaAux cs []
    else splitCommaAux cs (acc ++ [c])

/-- JS s.split with a comma literal. -/
def jsSplitComma (s : String) : List String :=
  (splitCommaAux s.data []).map (fun l => (⟨l⟩ : String))

/-- Replace each maximal run of whitespace by a single space: model of
replace with a global one-or-more-whitespace regex and a space, from
the metadata fetcher. -/
def collapseWsAux : List Char → Bool → List Char
  | [], _ => []
  | c :: cs, inRun =>
    if isWs c then
      if inRun then collapseWsAux cs true
      else ' ' :: collapseWsAux cs true
    else c :: collapseWsAux cs false

/-- JS replace of whitespace runs by single spaces. -/
def jsCollapseWs (s : String) : String :=
  ⟨collapseWsAux s.data false⟩

/-- ASCII lower-casing of one character. -/
def lowerChar (c : Char) : Char :=
  if c.toNat ≥ 65 ∧ c.toNat ≤ 90 then Char.ofNat (c.toNat + 32) else c

/-- ASCII lower-casing of a string. -/
def lowerStr (s : String) : String :=
  ⟨s.data.map lowerChar⟩

/-- Does pat occur at the start of hay? -/
def startsWithChars : List Char → List Char → Bool
  | _, [] => true
  | [], _ :: _ => false
  | c :: cs, d :: ds => c == d && startsWithChars cs ds

/-- Does pat occur contiguously anywhere inside hay? -/
def containsChars (hay pat : List Char) : Bool :=
  match hay with
  | [] => pat.isEmpty
  | _ :: cs => startsWithChars hay pat || containsChars cs pat

/-- Modelled from the spec: the storage collaborator evaluates a
case-insensitive regex condition on a field as a case-insensitive
substring test (the handlers pass the user term as the pattern of a
regex with the i option; the spec describes the resulting match as a
case-insensitive substring match, which is exact for terms without
regex metacharacters).  Restricted to ASCII case folding. -/
def ciContains (hay pat : String) : Bool :=
  containsChars (lowerStr hay).data (lowerStr pat).data

/-- A character the JS dot matches: anything but a line terminator. -/
def jsDot (c : Char) : Bool :=
  !(c == '\n' || c == '\r' || c == '\u2028' || c == '\u2029')

/-- Test of the URL validation regex of the bookmark handlers:
anchored http, an optional s, colon slash slash, then at least one
dot-matching character. -/
def urlPatternTest (s : String) : Bool :=
  match s.data with
  | 'h' :: 't' :: 't' :: 'p' :: 's' :: ':' :: '/' :: '/' :: c :: _ => jsDot c
  | 'h' :: 't' :: 't' :: 'p' :: ':' :: '/' :: '/' :: c :: _ => jsDot c
  | _ => false

/-- Spread of a JS Set built from a list: first-occurrence
deduplication in insertion order, modelled as the iteration the JS
engine performs. -/
def jsSetDedup (l : List String) : List String :=
  l.foldl (fun acc t => if acc.contains t then acc else acc ++ [t]) []

/-- Keep the first occurrence of every element: recursive
characterization of jsSetDedup used by the proofs. -/
def dedupFirst : List String → List String
  | [] => []
  | x :: xs => x :: dedupFirst (xs.filter (fun t => t ≠ x))
termination_by l => l.length
decreasing_by
  simp only [List.length_cons]
  exact Nat.lt_succ_of_le (List.length_filter_le _ _)

/-- The tags value of a request body: an array (elements already
coerced to strings, as the JS String() coercion is total), a single
string, a falsy value such as absence, or a truthy value of any other
type. -/
inductive TagsInput
  | absent
  | arr (elems : List String)
  | str (s : String)
  | other
deriving DecidableEq

/-- Array branch of the tag pipeline: map String() and trim over the
elements, keep the nonempty results. -/
def arrTags (l : List String) : List String :=
  (l.map jsTrim).filter (fun t => t.length > 0)

/-- String branch of the tag pipeline: split on runs of comma,
whitespace or hash, trim each piece, keep the nonempty results. -/
def strTags (s : String) : List String :=
  ((jsSplitRuns isTagDelim s).map jsTrim).filter (fun t => t.length > 0)

/-- Cleaned tag list before deduplication, per input shape.  A falsy
or non-array non-string truthy tags value leaves the array empty. -/
def cleanTags : TagsInput → List String
  | .absent => []
  | .other => []
  | .arr l => arrTags l
  | .str s => strTags s

/-- The tag normalization performed by the note and bookmark create
and update handlers: clean per input shape, then deduplicate via a JS
Set spread. -/
def normalizeTags (i : TagsInput) : List String :=
  jsSetDedup (cleanTags i)

/-- Spec-side run splitter, written from the specification words:
split the string on maximal runs of delimiter characters, producing
only the (necessarily nonempty) chunks between runs. -/
def specSplitAux (p : Char → Bool) : List Char → List Char → List (List Char)
  | [], acc => if acc.isEmpty then [] else [acc]
  | c :: cs, acc =>
    if p c then (if acc.isEmpty then [] else [acc]) ++ specSplitAux p cs []
    else specSplitAux p cs (acc ++ [c])

/-- Spec-side split on runs of delimiters. -/
def specSplitRuns (p : Char → Bool) (s : String) : List String :=
  (specSplitAux p s.data []).map (fun l => (⟨l⟩ : String))

/-- Spec-side description of the string branch of the Tag Normalizer:
split on runs of comma, whitespace, or hash; trim each piece; drop
empty results.  Stated from the specification words, to be compared
with strTags, which is translated from the code. -/
def specStringTags (s : String) : List String :=
  ((specSplitRuns isTagDelim s).map jsTrim).filter (fun t => !(t == ""))

/-- The four title sources the metadata fetcher reads from the parsed
page: attribute lookups may be absent (undefined), text lookups give a
possibly empty string. -/
structure PageDoc where
  ogTitle : Option String
  twitterTitle : Option String
  titleText : String
  h1Text : String
deriving DecidableEq

/-- Outcome of the outbound HTTP fetch and parse: any failure
(timeout, network error, non-HTML body), or a parsed page. -/
inductive FetchOutcome
  | failure
  | success (doc : PageDoc)
deriving DecidableEq

/-- JS a || b for a possibly-undefined string a with fallback b. -/
def jsOrStr (a : Option String) (b : String) : String :=
  match a with
  | some s => if s == "" then b else s
  | none => b

/-- The title = og || twitter || titleText || h1 chain of the
metadata fetcher, with JS falsiness skipping empty strings. -/
def titleChain (d : PageDoc) : String :=
  jsOrStr d.ogTitle (jsOrStr d.twitterTitle
    (if d.titleText == "" then d.h1Text else d.titleText))

/-- Title cleanup of the metadata fetcher: trim, then collapse
whitespace runs to single spaces. -/
def cleanTitle (s : String) : String :=
  jsCollapseWs (jsTrim s)

/-- The metadata fetcher fetchMetadata: on any fetch or parse failure
the catch block yields null; on success the title chain is evaluated,
a truthy title is cleaned, and the final title || null is returned.
The null result is modelled as none; no error escapes the function. -/
def fetchMetadata : FetchOutcome → Option String
  | .failure => none
  | .success d =>
    let title := titleChain d
    let cleaned := if title == "" then title else cleanTitle title
    if cleaned == "" then none else some cleaned

/-- The candidate titles of a page in the priority order the fetcher
checks them, absent attributes read as empty. -/
def candidateTitles (d : PageDoc) : List String :=
  [d.ogTitle.getD "", d.twitterTitle.getD "", d.titleText, d.h1Text]

/-- A stored note document: ObjectId values are modelled as naturals
(a well-formed id), the owner reference likewise. -/
structure StoredNote where
  id : Nat
  user : Nat
  title : String
  content : String
  tags : List String
  isFavorite : Bool
deriving DecidableEq

/-- A stored bookmark document. -/
structure StoredBookmark where
  id : Nat
  user : Nat
  url : String
  title : String
  description : String
  tags : List String
  isFavorite : Bool
deriving DecidableEq

/-- A path id parameter: either a string that casts to an ObjectId
(well-formed, modelled as a natural) or one that makes Mongoose throw
a CastError. -/
inductive ReqId
  | malformed
  | valid (i : Nat)
deriving DecidableEq

/-- Body of a note create request.  Fields are absent or strings;
a present non-string value for title or content fails the same guard
as a blank string and is not modelled separately. -/
structure NoteCreateReq where
  title : Option String
  content : Option String
  tags : TagsInput
  isFavorite : Option Bool
deriving DecidableEq

/-- Body of a note update request: only present fields are applied. -/
structure NoteUpdateReq where
  title : Option String
  content : Option String
  tags : Option TagsInput
  isFavorite : Option Bool
deriving DecidableEq

/-- Body of a bookmark create request. -/
structure BookmarkCreateReq where
  url : Option String
  title : Option String
  description : Option String
  tags : TagsInput
  isFavorite : Option Bool
deriving DecidableEq

/-- Body of a bookmark update request. -/
structure BookmarkUpdateReq where
  url : Option String
  title : Option String
  description : Option String
  tags : Option TagsInput
  isFavorite : Option Bool
deriving DecidableEq

/-- Response of a note handler together with the resulting store
contents; body carries the JSON document of a success response. -/
structure NoteResponse where
  status : Nat
  error : Option String
  body : Option StoredNote
  db : List StoredNote
deriving DecidableEq

/-- Response of a bookmark read, update, or delete handler. -/
structure BookmarkResponse where
  status : Nat
  error : Option String
  body : Option StoredBookmark
  db : List StoredBookmark
deriving DecidableEq

/-- Response of the bookmark create handler; fetchInvoked records
whether fetchMetadata was called while serving the request. -/
structure BookmarkCreateResult where
  status : Nat
  error : Option String
  body : Option StoredBookmark
  db : List StoredBookmark
  fetchInvoked : Bool
deriving DecidableEq

/-- Replace the first element satisfying p by v, as a Mongoose
findOneAndUpdate affects a single matching document. -/
def updateFirst {α : Type} (p : α → Bool) (v : α) : List α → List α
  | [] => []
  | x :: xs => if p x then v :: xs else x :: updateFirst p v xs

/-- The filter used by every single-document note operation:
match on document id and owner simultaneously. -/
def noteOwnedFilter (i uid : Nat) (n : StoredNote) : Bool :=
  n.id == i && n.user == uid

/-- The filter used by every single-document bookmark operation. -/
def bmOwnedFilter (i uid : Nat) (b : StoredBookmark) : Bool :=
  b.id == i && b.user == uid

/-- Is a present update value longer than the given schema maxlength
limit?  Mongoose update validators check only the paths present in the
update document. -/
def overMax (n : Nat) : Option String → Bool
  | none => false
  | some s => n < s.length

/-- Field-level validation messages joined with a comma and space, as
the ValidationError catch blocks of the handlers join them. -/
def joinErrors : List String → String
  | [] => ""
  | [e] => e
  | e :: rest => e ++ ", " ++ joinErrors rest

/-- POST of the note router: validate title and content, normalize
tags, construct and save the note.  Route validation failures respond
400 before any storage call; saving runs schema validation, whose only
failable rule on a route-validated note is the title maxlength of 200
(title and content presence are already guaranteed), answered 400 via
the ValidationError branch with nothing persisted. -/
def noteCreate (db : List StoredNote) (uid newId : Nat) (r : NoteCreateReq) :
    NoteResponse :=
  if optStrBlank r.title then
    { status := 400, error := some "Title is required", body := none, db := db }
  else if optStrBlank r.content then
    { status := 400, error := some "Content is required", body := none, db := db }
  else
    let note : StoredNote :=
      { id := newId, user := uid, title := jsTrim (r.title.getD ""),
        content := jsTrim (r.content.getD ""), tags := normalizeTags r.tags,
        isFavorite := r.isFavorite.getD false }
    if note.title.length > 200 then
      { status := 400, error := some "Title cannot exceed 200 characters",
        body := none, db := db }
    else
      { status := 201, error := none, body := some note, db := db ++ [note] }

/-- The query object built by GET of the note router from the q, tags
and favorite query parameters, always scoped to the requesting user. -/
structure NoteQuery where
  user : Nat
  qOr : Option String
  tagsIn : Option (List String)
  favOnly : Option Bool
deriving DecidableEq

/-- The query object built by GET of the bookmark router. -/
structure BookmarkQuery where
  user : Nat
  qOr : Option String
  tagsIn : Option (List String)
  favOnly : Option Bool
deriving DecidableEq

/-- The comma-split, trimmed, empties-dropped tag filter list of the
list handlers. -/
def tagsParamList (ts : String) : List String :=
  ((jsSplitComma ts).map jsTrim).filter (fun t => t.length > 0)

/-- Note list query construction, translated from GET of the note
router: a truthy q adds the title-or-content regex disjunction, a
truthy tags parameter with a nonempty cleaned list adds the tag
condition, favorite equal to the string true adds the favorite
condition. -/
def buildNoteQuery (uid : Nat) (q tags favorite : Option String) : NoteQuery :=
  { user := uid
    qOr :=
      match q with
      | none => none
      | some s => if s == "" then none else some s
    tagsIn :=
      match tags with
      | none => none
      | some ts =>
        if ts == "" then none
        else if (tagsParamList ts).length > 0 then some (tagsParamList ts) else none
    favOnly := if favorite == some "true" then some true else none }

/-- Bookmark list query construction, translated from GET of the
bookmark router; identical shape, with the free-text disjunction over
title, description and url. -/
def buildBookmarkQuery (uid : Nat) (q tags favorite : Option String) :
    BookmarkQuery :=
  { user := uid
    qOr :=
      match q with
      | none => none
      | some s => if s == "" then none else some s
    tagsIn :=
      match tags with
      | none => none
      | some ts =>
        if ts == "" then none
        else if (tagsParamList ts).length > 0 then some (tagsParamList ts) else none
    favOnly := if favorite == some "true" then some true else none }

/-- Modelled from the spec: evaluation of the note query object by the
storage collaborator.  The owner condition is an equality, the regex
conditions are case-insensitive substring tests joined by or over
title and content, the tag condition matches records whose tag set
intersects the given list, the favorite condition is an equality; the
active conditions are joined by and. -/
def noteMatches (qy : NoteQuery) (n : StoredNote) : Bool :=
  (n.user == qy.user) &&
  (match qy.qOr with
   | none => true
   | some q => ciContains n.title q || ciContains n.content q) &&
  (match qy.tagsIn with
   | none => true
   | some ts => ts.any (fun t => n.tags.contains t)) &&
  (match qy.favOnly with
   | none => true
   | some b => n.isFavorite == b)

/-- Modelled from the spec: evaluation of the bookmark query object,
with the free-text disjunction over title, description and url. -/
def bookmarkMatches (qy : BookmarkQuery) (b : StoredBookmark) : Bool :=
  (b.user == qy.user) &&
  (match qy.qOr with
   | none => true
   | some q => ciContains b.title q || ciContains b.description q ||
       ciContains b.url q) &&
  (match qy.tagsIn with
   | none => true
   | some ts => ts.any (fun t => b.tags.contains t)) &&
  (match qy.favOnly with
   | none => true
   | some fb => b.isFavorite == fb)

/-- GET by id of the note router: a malformed id makes findOne throw a
CastError, answered 400; otherwise findOne filters by id and owner and
a missing document is answered 404. -/
def noteGet (db : List StoredNote) (uid : Nat) (rid : ReqId) : NoteResponse :=
  match rid with
  | .malformed =>
    { status := 400, error := some "Invalid note ID", body := none, db := db }
  | .valid i =>
    match db.find? (noteOwnedFilter i uid) with
    | none =>
      { status := 404, error := some "Note not found", body := none, db := db }
    | some n =>
      { status := 200, error := none, body := some n, db := db }

/-- Validation of one optional required string field of an update
body: an absent field is skipped, a present blank field aborts with
the given message, otherwise the trimmed value is recorded. -/
def checkUpdField (msg : String) : Option String → Except String (Option String)
  | none => .ok none
  | some t => if strBlank t then .error msg else .ok (some (jsTrim t))

/-- PUT of the note router: present fields are validated and collected
into updateData in source order (title, content, tags, isFavorite),
then findOneAndUpdate filters by id and owner.  A malformed id makes
Mongoose throw a CastError while casting the filter, answered 400;
otherwise the runValidators option re-runs the schema validators on
the updated paths, whose only failable rule on a route-validated body
is the title maxlength of 200, answered 400 via the ValidationError
branch; then a missing document is answered 404, and on success the
updated document is returned. -/
def noteUpdate (db : List StoredNote) (uid : Nat) (rid : ReqId)
    (r : NoteUpdateReq) : NoteResponse :=
  match checkUpdField "Title is required" r.title with
  | .error e => { status := 400, error := some e, body := none, db := db }
  | .ok ut =>
    match checkUpdField "Content is required" r.content with
    | .error e => { status := 400, error := some e, body := none, db := db }
    | .ok uc =>
      let utags := r.tags.map normalizeTags
      match rid with
      | .malformed =>
        { status := 400, error := some "Invalid note ID", body := none, db := db }
      | .valid i =>
        if overMax 200 ut then
          { status := 400, error := some "Title cannot exceed 200 characters",
            body := none, db := db }
        else
        match db.find? (noteOwnedFilter i uid) with
        | none =>
          { status := 404, error := some "Note not found", body := none, db := db }
        | some n =>
          let n2 : StoredNote :=
            { n with title := ut.getD n.title, content := uc.getD n.content,
                     tags := utags.getD n.tags,
                     isFavorite := r.isFavorite.getD n.isFavorite }
          { status := 200, error := none, body := some n2,
            db := updateFirst (noteOwnedFilter i uid) n2 db }

/-- DELETE of the note router: findOneAndDelete filters by id and
owner; malformed ids are answered 400 via the CastError branch,
missing documents 404. -/
def noteDelete (db : List StoredNote) (uid : Nat) (rid : ReqId) : NoteResponse :=
  match rid with
  | .malformed =>
    { status := 400, error := some "Invalid note ID", body := none, db := db }
  | .valid i =>
    match db.find? (noteOwnedFilter i uid) with
    | none =>
      { status := 404, error := some "Note not found", body := none, db := db }
    | some _ =>
      { status := 200, error := none, body := none,
        db := db.eraseP (noteOwnedFilter i uid) }

/-- POST of the bookmark router: validate presence and format of the
url, normalize tags, auto-fetch a title when the supplied one is
absent or blank (falling back to the raw url when the fetcher yields
null), construct and save the bookmark.  Saving runs schema
validation: on a route-validated body the failable rules are the
title maxlength of 200 and the description maxlength of 500 (the url
pattern was already enforced on the same trimmed value), answered 400
via the ValidationError branch with the messages joined and nothing
persisted; the metadata fetch has already happened by then. -/
def bookmarkCreate (db : List StoredBookmark) (uid newId : Nat)
    (r : BookmarkCreateReq) (page : FetchOutcome) : BookmarkCreateResult :=
  match r.url with
  | none =>
    { status := 400, error := some "URL is required", body := none, db := db,
      fetchInvoked := false }
  | some u =>
    if strBlank u then
      { status := 400, error := some "URL is required", body := none, db := db,
        fetchInvoked := false }
    else if !urlPatternTest (jsTrim u) then
      { status := 400,
        error := some "Please provide a valid URL (must start with http:// or https://)",
        body := none, db := db, fetchInvoked := false }
    else
      let titleMissing : Bool :=
        match r.title with
        | none => true
        | some t => strBlank t
      let bookmarkTitle : String :=
        if titleMissing then
          match fetchMetadata page with
          | some t => t
          | none => u
        else r.title.getD ""
      let bm : StoredBookmark :=
        { id := newId, user := uid, url := jsTrim u, title := jsTrim bookmarkTitle,
          description :=
            match r.description with
            | none => ""
            | some d => if d == "" then "" else jsTrim d,
          tags := normalizeTags r.tags, isFavorite := r.isFavorite.getD false }
      if bm.title.length > 200 ∨ bm.description.length > 500 then
        { status := 400,
          error := some (joinErrors
            ((if bm.title.length > 200 then
                ["Title cannot exceed 200 characters"] else []) ++
             (if bm.description.length > 500 then
                ["Description cannot exceed 500 characters"] else []))),
          body := none, db := db, fetchInvoked := titleMissing }
      else
        { status := 201, error := none, body := some bm, db := db ++ [bm],
          fetchInvoked := titleMissing }

/-- GET by id of the bookmark router. -/
def bookmarkGet (db : List StoredBookmark) (uid : Nat) (rid : ReqId) :
    BookmarkResponse :=
  match rid with
  | .malformed =>
    { status := 400, error := some "Invalid bookmark ID", body := none, db := db }
  | .valid i =>
    match db.find? (bmOwnedFilter i uid) with
    | none =>
      { status := 404, error := some "Bookmark not found", body := none, db := db }
    | some b =>
      { status := 200, error := none, body := some b, db := db }

/-- Validation of the optional url field of a bookmark update body:
blank aborts with the required-message, a trimmed value failing the
pattern aborts with the format message, otherwise the trimmed url is
recorded. -/
def checkUrlField : Option String → Except String (Option String)
  | none => .ok none
  | some u =>
    if strBlank u then .error "URL is required"
    else if !urlPatternTest (jsTrim u) then
      .error "Please provide a valid URL (must start with http:// or https://)"
    else .ok (some (jsTrim u))

/-- PUT of the bookmark router: a present url is re-validated; present
title and description are trimmed with a blank kept as the empty
string; present tags are re-normalized; then findOneAndUpdate filters
by id and owner.  A malformed id makes Mongoose throw a CastError
while casting the filter, answered 400; otherwise the runValidators
option re-runs the schema validators on the updated paths, whose
failable rules on a route-validated body are the title maxlength of
200 and the description maxlength of 500 (a present url was already
pattern-checked on the same trimmed value), answered 400 via the
ValidationError branch with the messages joined. -/
def bookmarkUpdate (db : List StoredBookmark) (uid : Nat) (rid : ReqId)
    (r : BookmarkUpdateReq) : BookmarkResponse :=
  match checkUrlField r.url with
  | .error e => { status := 400, error := some e, body := none, db := db }
  | .ok uu =>
    let ut := r.title.map (fun t => if t == "" then "" else jsTrim t)
    let ud := r.description.map (fun d => if d == "" then "" else jsTrim d)
    let utags := r.tags.map normalizeTags
    match rid with
    | .malformed =>
      { status := 400, error := some "Invalid bookmark ID", body := none, db := db }
    | .valid i =>
      if overMax 200 ut || overMax 500 ud then
        { status := 400,
          error := some (joinErrors
            ((if overMax 200 ut then
                ["Title cannot exceed 200 characters"] else []) ++
             (if overMax 500 ud then
                ["Description cannot exceed 500 characters"] else []))),
          body := none, db := db }
      else
      match db.find? (bmOwnedFilter i uid) with
      | none =>
        { status := 404, error := some "Bookmark not found", body := none, db := db }
      | some b =>
        let b2 : StoredBookmark :=
          { b with url := uu.getD b.url, title := ut.getD b.title,
                   description := ud.getD b.description, tags := utags.getD b.tags,
                   isFavorite := r.isFavorite.getD b.isFavorite }
        { status := 200, error := none, body := some b2,
          db := updateFirst (bmOwnedFilter i uid) b2 db }

/-- DELETE of the bookmark router. -/
def bookmarkDelete (db : List StoredBookmark) (uid : Nat) (rid : ReqId) :
    BookmarkResponse :=
  match rid with
  | .malformed =>
    { status := 400, error := some "Invalid bookmark ID", body := none, db := db }
  | .valid i =>
    match db.find? (bmOwnedFilter i uid) with
    | none =>
      { status := 404, error := some "Bookmark not found", body := none, db := db }
    | some _ =>
      { status := 200, error := none, body := none,
        db := db.eraseP (bmOwnedFilter i uid) }

/-- Is the url of a bookmark create body present, truthy, and
well-formed?  Mirrors the guards of the create handler. -/
def bmUrlOk (r : BookmarkCreateReq) : Bool :=
  match r.url with
  | none => false
  | some u => !strBlank u && urlPatternTest (jsTrim u)

/-- Is the title of a bookmark create body absent or blank?  Mirrors
the auto-fetch condition of the create handler. -/
def bmTitleBlank (r : BookmarkCreateReq) : Bool :=
  match r.title with
  | none => true
  | some t => strBlank t

/-! Helper lemmas about trimming. -/

theorem dropWhile_cons_false (p : Char → Bool) :
    ∀ (l : List Char) (c : Char) (rest : List Char),
      l.dropWhile p = c :: rest → p c = false := by
  intro l
  induction l with
  | nil => intro c rest h; simp [List.dropWhile] at h
  | cons a as ih =>
    intro c rest h
    rw [List.dropWhile_cons] at h
    by_cases hp : p a
    · simp only [hp, if_true] at h
      exact ih _ _ h
    · simp only [hp, if_false] at h
      obtain ⟨rfl, -⟩ := List.cons.injEq .. ▸ h
      · simpa using hp

theorem trimChars_head_not_ws (l : List Char) (c : Char) (rest : List Char)
    (h : trimChars l = c :: rest) : isWs c = false := by
  unfold trimChars at h
  obtain ⟨t, ht⟩ := List.rdropWhile_prefix (l := l.dropWhile isWs) (p := isWs)
  rw [h] at ht
  have hd : l.dropWhile isWs = c :: (rest ++ t) := by
    rw [← ht]; simp
  exact dropWhile_cons_false isWs l c (rest ++ t) hd

theorem trimChars_idem (l : List Char) : trimChars (trimChars l) = trimChars l := by
  have h1 : (trimChars l).dropWhile isWs = trimChars l := by
    cases h : trimChars l with
    | nil => simp
    | cons c rest =>
      rw [List.dropWhile_cons, trimChars_head_not_ws l c rest h]
      simp
  show ((trimChars l).dropWhile isWs).rdropWhile isWs = trimChars l
  rw [h1]
  exact List.rdropWhile_idempotent isWs (l.dropWhile isWs)

theorem jsTrim_idem (s : String) : jsTrim (jsTrim s) = jsTrim s := by
  simp [jsTrim, trimChars_idem]

theorem trimChars_eq_self_of_no_ws (l : List Char) (h : ∀ c ∈ l, isWs c = false) :
    trimChars l = l := by
  unfold trimChars
  rw [List.dropWhile_eq_self_iff.mpr, List.rdropWhile_eq_self_iff.mpr]
  · intro hl
    exact (by simpa using h _ (List.getLast_mem hl))
  · intro hl
    exact (by simpa using h _ (List.get_mem l 0 hl))

/-! Helper lemmas about deduplication. -/

theorem dedupFirst_nil : dedupFirst [] = [] := by
  simp only [dedupFirst]

theorem dedupFirst_cons (x : String) (xs : List String) :
    dedupFirst (x :: xs) = x :: dedupFirst (xs.filter (fun t => t ≠ x)) := by
  simp only [dedupFirst]

theorem foldl_dedup (l acc : List String) :
    l.foldl (fun acc t => if acc.contains t then acc else acc ++ [t]) acc =
      acc ++ dedupFirst (l.filter (fun t => !acc.contains t)) := by
  induction l generalizing acc with
  | nil => simp [dedupFirst_nil]
  | cons x xs ih =>
    simp only [List.foldl_cons, List.filter_cons]
    cases hx : acc.contains x with
    | true =>
      rw [if_pos rfl, if_neg (by decide)]
      exact ih acc
    | false =>
      rw [if_neg (by decide), if_pos (by decide)]
      rw [ih, dedupFirst_cons]
      have hfil : xs.filter (fun t => !(acc ++ [x]).contains t) =
          (xs.filter (fun t => !acc.contains t)).filter (fun t => t ≠ x) := by
        rw [List.filter_filter]
        apply List.filter_congr
        intro a _
        by_cases h1 : a ∈ acc <;> by_cases h2 : a = x <;>
          simp [List.contains, List.elem_eq_mem, List.mem_append, h1, h2]
      rw [hfil]
      simp

theorem jsSetDedup_eq_dedupFirst (l : List String) : jsSetDedup l = dedupFirst l := by
  rw [jsSetDedup, foldl_dedup]
  simp

theorem mem_dedupFirst (a : String) (l : List String) : a ∈ dedupFirst l ↔ a ∈ l := by
  induction l using dedupFirst.induct with
  | case1 => simp [dedupFirst_nil]
  | case2 x xs ih =>
    simp only [dedupFirst_cons, List.mem_cons, ih, List.mem_filter]
    constructor
    · rintro (rfl | ⟨h, _⟩)
      · exact Or.inl rfl
      · exact Or.inr h
    · rintro (rfl | h)
      · exact Or.inl rfl
      · by_cases hx : a = x
        · exact Or.inl hx
        · exact Or.inr ⟨h, by simpa using hx⟩

theorem nodup_dedupFirst (l : List String) : (dedupFirst l).Nodup := by
  induction l using dedupFirst.induct with
  | case1 => simp [dedupFirst_nil]
  | case2 x xs ih =>
    rw [dedupFirst_cons]
    refine List.nodup_cons.mpr ⟨?_, ih⟩
    intro hmem
    have := (mem_dedupFirst _ _).mp hmem
    simp [List.mem_filter] at this

theorem dedupFirst_sublist (l : List String) : (dedupFirst l).Sublist l := by
  induction l using dedupFirst.induct with
  | case1 => simp [dedupFirst_nil]
  | case2 x xs ih =>
    rw [dedupFirst_cons]
    exact List.Sublist.cons₂ x (ih.trans (List.filter_sublist xs))

theorem dedupFirst_eq_self (l : List String) (h : l.Nodup) : dedupFirst l = l := by
  induction l using dedupFirst.induct with
  | case1 => exact dedupFirst_nil
  | case2 x xs ih =>
    rw [dedupFirst_cons]
    obtain ⟨hx, hxs⟩ := List.nodup_cons.mp h
    have hf : xs.filter (fun t => t ≠ x) = xs := by
      apply List.filter_eq_self.mpr
      intro a ha
      simp only [ne_eq, decide_eq_true_eq]
      rintro rfl
      exact hx ha
    rw [hf] at ih ⊢
    rw [ih hxs]

/-! Helper lemmas about strings built from character lists. -/

theorem mkStr_length (t : List Char) : (⟨t⟩ : String).length = t.length := rfl

theorem mkStr_eq_empty_iff (t : List Char) : ((⟨t⟩ : String) = "") ↔ t = [] := by
  constructor
  · intro h
    have : (⟨t⟩ : String).data = ("" : String).data := by rw [h]
    simpa using this
  · rintro rfl
    rfl

theorem string_length_pos (s : String) : 0 < s.length ↔ s ≠ "" := by
  cases s with
  | mk d =>
    rw [show (⟨d⟩ : String).length = d.length from rfl]
    cases d with
    | nil => simp [mkStr_eq_empty_iff]
    | cons c cs => simp [mkStr_eq_empty_iff]

theorem mkStr_beq_empty (t : List Char) : ((⟨t⟩ : String) == "") = t.isEmpty := by
  cases h : ((⟨t⟩ : String) == "") with
  | true =>
    have := eq_of_beq h
    rw [mkStr_eq_empty_iff] at this
    subst this
    rfl
  | false =>
    cases t with
    | nil => simp at h
    | cons c cs => rfl

/-! Relating the code split (JS regex split on delimiter runs) to the
spec-side run splitter. -/

theorem jsSplitAux_no_delim (p : Char → Bool) :
    ∀ (l acc : List Char) (inRun : Bool), (∀ c ∈ acc, p c = false) →
      ∀ t ∈ jsSplitAux p l acc inRun, ∀ c ∈ t, p c = false := by
  intro l
  induction l with
  | nil =>
    intro acc inRun hacc t ht
    simp only [jsSplitAux, List.mem_singleton] at ht
    subst ht
    exact hacc
  | cons c cs ih =>
    intro acc inRun hacc t ht
    simp only [jsSplitAux] at ht
    cases hp : p c with
    | true =>
      rw [hp, if_pos rfl] at ht
      cases inRun with
      | true =>
        rw [if_pos rfl] at ht
        exact ih [] true (by simp) t ht
      | false =>
        rw [if_neg (by decide)] at ht
        rcases List.mem_cons.mp ht with rfl | ht2
        · exact hacc
        · exact ih [] true (by simp) t ht2
    | false =>
      rw [hp, if_neg (by decide)] at ht
      refine ih (acc ++ [c]) false ?_ t ht
      intro d hd
      rcases List.mem_append.mp hd with h | h
      · exact hacc d h
      · simp only [List.mem_singleton] at h
        subst h
        exact hp

theorem jsSplitAux_filter (p : Char → Bool) :
    ∀ (l acc : List Char) (inRun : Bool), (inRun = true → acc = []) →
      (jsSplitAux p l acc inRun).filter (fun t => !t.isEmpty) = specSplitAux p l acc := by
  intro l
  induction l with
  | nil =>
    intro acc inRun _
    cases acc <;> simp [jsSplitAux, specSplitAux]
  | cons c cs ih =>
    intro acc inRun hinv
    simp only [jsSplitAux, specSplitAux]
    cases hp : p c with
    | true =>
      rw [if_pos rfl, if_pos rfl]
      cases inRun with
      | true =>
        have hacc := hinv rfl
        subst hacc
        rw [if_pos rfl]
        simp only [List.isEmpty_nil, if_pos rfl, List.nil_append]
        exact ih [] true (fun _ => rfl)
      | false =>
        rw [if_neg (by decide), List.filter_cons]
        cases acc with
        | nil =>
          simp only [List.isEmpty_nil, Bool.not_true, Bool.false_eq_true, if_false,
            if_pos rfl, List.nil_append]
          exact ih [] true (fun _ => rfl)
        | cons a as =>
          rw [if_pos (show (!(a :: as).isEmpty) = true from rfl),
            if_neg (show ¬((a :: as).isEmpty = true) by simp),
            ih [] true (fun _ => rfl)]
          rfl
    | false =>
      rw [if_neg (by decide), if_neg (by decide)]
      exact ih (acc ++ [c]) false (by simp)

theorem jsTrim_mk_of_no_ws (t : List Char) (h : ∀ c ∈ t, isWs c = false) :
    jsTrim ⟨t⟩ = ⟨t⟩ := by
  show (⟨trimChars t⟩ : String) = ⟨t⟩
  rw [trimChars_eq_self_of_no_ws t h]

theorem mapMk_clean (chunks : List (List Char))
    (hnws : ∀ t ∈ chunks, ∀ c ∈ t, isWs c = false) :
    ((chunks.map (fun l => (⟨l⟩ : String))).map jsTrim).filter
        (fun t => t.length > 0) =
      (chunks.filter (fun t => !t.isEmpty)).map (fun l => (⟨l⟩ : String)) := by
  induction chunks with
  | nil => rfl
  | cons t ts ih =>
    have htr : jsTrim ⟨t⟩ = ⟨t⟩ :=
      jsTrim_mk_of_no_ws t (hnws t (List.mem_cons_self t ts))
    have hts : ∀ u ∈ ts, ∀ c ∈ u, isWs c = false :=
      fun u hu => hnws u (List.mem_cons_of_mem t hu)
    simp only [List.map_cons, List.filter_cons, htr]
    cases t with
    | nil =>
      rw [if_neg (by simp [mkStr_length]), if_neg (by simp)]
      exact ih hts
    | cons a as =>
      rw [if_pos (by simp [mkStr_length]), if_pos (by simp)]
      rw [List.map_cons, ih hts]

theorem mapMk_spec_clean (chunks : List (List Char))
    (hnws : ∀ t ∈ chunks, ∀ c ∈ t, isWs c = false)
    (hne : ∀ t ∈ chunks, t.isEmpty = false) :
    ((chunks.map (fun l => (⟨l⟩ : String))).map jsTrim).filter
        (fun t => !(t == "")) =
      chunks.map (fun l => (⟨l⟩ : String)) := by
  induction chunks with
  | nil => rfl
  | cons t ts ih =>
    have htr : jsTrim ⟨t⟩ = ⟨t⟩ :=
      jsTrim_mk_of_no_ws t (hnws t (List.mem_cons_self t ts))
    simp only [List.map_cons, List.filter_cons, htr]
    rw [if_pos (by rw [mkStr_beq_empty, hne t (List.mem_cons_self t ts)]; rfl)]
    rw [ih (fun u hu => hnws u (List.mem_cons_of_mem t hu))
      (fun u hu => hne u (List.mem_cons_of_mem t hu))]

theorem isWs_of_isTagDelim_false (c : Char) (h : isTagDelim c = false) :
    isWs c = false := by
  unfold isTagDelim at h
  cases hw : isWs c with
  | true => rw [hw] at h; simp at h
  | false => rfl

theorem strTags_eq_spec (s : String) : strTags s = specStringTags s := by
  have hnd : ∀ t ∈ jsSplitAux isTagDelim s.data [] false, ∀ c ∈ t,
      isTagDelim c = false :=
    jsSplitAux_no_delim isTagDelim s.data [] false (by simp)
  have hnws : ∀ t ∈ jsSplitAux isTagDelim s.data [] false, ∀ c ∈ t,
      isWs c = false :=
    fun t ht c hc => isWs_of_isTagDelim_false c (hnd t ht c hc)
  have hfil := jsSplitAux_filter isTagDelim s.data [] false (by simp)
  have hspecmem : ∀ t ∈ specSplitAux isTagDelim s.data [],
      t ∈ jsSplitAux isTagDelim s.data [] false ∧ t.isEmpty = false := by
    intro t ht
    rw [← hfil] at ht
    have := List.mem_filter.mp ht
    exact ⟨this.1, by simpa using this.2⟩
  show ((jsSplitRuns isTagDelim s).map jsTrim).filter (fun t => t.length > 0) =
    ((specSplitRuns isTagDelim s).map jsTrim).filter (fun t => !(t == ""))
  rw [jsSplitRuns, specSplitRuns]
  rw [mapMk_clean _ hnws, hfil]
  rw [mapMk_spec_clean _ (fun t ht => hnws t (hspecmem t ht).1)
    (fun t ht => (hspecmem t ht).2)]

/-! Properties of the cleaned and normalized tag lists. -/

theorem mem_clean_core (L : List String) (t : String)
    (h : t ∈ (L.map jsTrim).filter (fun x => x.length > 0)) :
    jsTrim t = t ∧ t ≠ "" := by
  rw [List.mem_filter] at h
  obtain ⟨hm, hlen⟩ := h
  rw [List.mem_map] at hm
  obtain ⟨x, -, rfl⟩ := hm
  refine ⟨jsTrim_idem x, ?_⟩
  intro he
  rw [he] at hlen
  simp at hlen

theorem mem_cleanTags (i : TagsInput) (t : String) (h : t ∈ cleanTags i) :
    jsTrim t = t ∧ t ≠ "" := by
  cases i with
  | absent => simp [cleanTags] at h
  | other => simp [cleanTags] at h
  | arr l => exact mem_clean_core l t h
  | str s => exact mem_clean_core (jsSplitRuns isTagDelim s) t h

theorem normalizeTags_eq_dedupFirst (i : TagsInput) :
    normalizeTags i = dedupFirst (cleanTags i) := by
  rw [normalizeTags, jsSetDedup_eq_dedupFirst]

theorem mem_normalizeTags (i : TagsInput) (t : String) :
    t ∈ normalizeTags i ↔ t ∈ cleanTags i := by
  rw [normalizeTags_eq_dedupFirst, mem_dedupFirst]

theorem normalizeTags_nodup (i : TagsInput) : (normalizeTags i).Nodup := by
  rw [normalizeTags_eq_dedupFirst]
  exact nodup_dedupFirst _

theorem normalizeTags_entries (i : TagsInput) (t : String)
    (h : t ∈ normalizeTags i) : t ≠ "" ∧ jsTrim t = t := by
  have := mem_cleanTags i t ((mem_normalizeTags i t).mp h)
  exact ⟨this.2, this.1⟩

theorem normalizeTags_idem (i : TagsInput) :
    normalizeTags (.arr (normalizeTags i)) = normalizeTags i := by
  have htr : ∀ t ∈ normalizeTags i, jsTrim t = t :=
    fun t ht => (normalizeTags_entries i t ht).2
  have hne : ∀ t ∈ normalizeTags i, t ≠ "" :=
    fun t ht => (normalizeTags_entries i t ht).1
  have h1 : (normalizeTags i).map jsTrim = normalizeTags i := by
    rw [List.map_congr_left htr]
    simp
  have h2 : (normalizeTags i).filter (fun t => t.length > 0) = normalizeTags i := by
    apply List.filter_eq_self.mpr
    intro t ht
    exact decide_eq_true ((string_length_pos t).mpr (hne t ht))
  have h3 : arrTags (normalizeTags i) = normalizeTags i := by
    rw [arrTags, h1, h2]
  show jsSetDedup (arrTags (normalizeTags i)) = normalizeTags i
  rw [h3, jsSetDedup_eq_dedupFirst]
  exact dedupFirst_eq_self _ (normalizeTags_nodup i)

theorem find_none_notes (db : List StoredNote) (i uid : Nat)
    (h : ∀ n ∈ db, n.id = i → n.user ≠ uid) :
    db.find? (noteOwnedFilter i uid) = none := by
  rw [List.find?_eq_none]
  intro n hn
  simp only [noteOwnedFilter, Bool.and_eq_true, beq_iff_eq, not_and]
  exact h n hn

theorem find_none_bms (db : List StoredBookmark) (i uid : Nat)
    (h : ∀ b ∈ db, b.id = i → b.user ≠ uid) :
    db.find? (bmOwnedFilter i uid) = none := by
  rw [List.find?_eq_none]
  intro b hb
  simp only [bmOwnedFilter, Bool.and_eq_true, beq_iff_eq, not_and]
  exact h b hb

/-- C2: for every tag input, the Tag Normalizer output has no duplicate
entries, no empty and no whitespace-only entries (every entry is nonempty
and equal to its own trim), equals the first-occurrence deduplication of
the cleaned input list — preserving first-seen order, witnessed by the
sublist relation and the membership equivalence with the cleaned list —
and re-normalizing the output as an array input returns it unchanged. -/
theorem claim_C2 (i : TagsInput) :
    (normalizeTags i).Nodup ∧
    (∀ t ∈ normalizeTags i, t ≠ "" ∧ jsTrim t = t) ∧
    normalizeTags i = dedupFirst (cleanTags i) ∧
    (normalizeTags i).Sublist (cleanTags i) ∧
    (∀ t, t ∈ normalizeTags i ↔ t ∈ cleanTags i) ∧
    normalizeTags (.arr (normalizeTags i)) = normalizeTags i := by
  refine ⟨normalizeTags_nodup i, fun t ht => normalizeTags_entries i t ht, ?_, ?_, ?_, ?_⟩
  · exact normalizeTags_eq_dedupFirst i
  · rw [normalizeTags_eq_dedupFirst]
    exact dedupFirst_sublist _
  · exact fun t => mem_normalizeTags i t
  · exact normalizeTags_idem i

/-- C2 witness: the properties evaluated at a concrete delimited-string
input with duplicates, blanks and mixed delimiters. -/
theorem claim_C2_witness :
    (normalizeTags (.str "work, home #work  home x")).Nodup ∧
    normalizeTags (.arr (normalizeTags (.str "work, home #work  home x"))) =
      normalizeTags (.str "work, home #work  home x") := by
  refine ⟨(claim_C2 (.str "work, home #work  home x")).1,
    (claim_C2 (.str "work, home #work  home x")).2.2.2.2.2⟩

/-- C3: the Tag Normalizer splits string input on runs of comma,
whitespace or hash characters exactly as the spec-side run splitter
does (trim each piece, drop empties), reproduces the worked example of
the spec, maps falsy input and truthy non-array non-string input to
the empty list, and on array input trims the coerced elements and
drops empties before deduplicating; all cases are total, no error
path exists. -/
theorem claim_C3 :
    (∀ s, strTags s = specStringTags s) ∧
    normalizeTags (.str "foo, bar #baz  qux") = ["foo", "bar", "baz", "qux"] ∧
    normalizeTags .absent = [] ∧
    normalizeTags .other = [] ∧
    (∀ l, normalizeTags (.arr l) =
      jsSetDedup ((l.map jsTrim).filter (fun t => t.length > 0))) := by
  refine ⟨strTags_eq_spec, by decide, rfl, rfl, fun l => rfl⟩

/-- C6: with a free-text term present (and no other parameter), the note
list query matches exactly the records of the requesting user whose title
or content contains the term case-insensitively, and the bookmark list
query those whose title, description or url contains it, as a disjunction
across the fields. -/
theorem claim_C6 :
    (∀ (uid : Nat) (q : String) (n : StoredNote), q ≠ "" →
      (noteMatches (buildNoteQuery uid (some q) none none) n = true ↔
        (n.user = uid ∧ (ciContains n.title q = true ∨
          ciContains n.content q = true)))) ∧
    (∀ (uid : Nat) (q : String) (b : StoredBookmark), q ≠ "" →
      (bookmarkMatches (buildBookmarkQuery uid (some q) none none) b = true ↔
        (b.user = uid ∧ (ciContains b.title q = true ∨
          ciContains b.description q = true ∨ ciContains b.url q = true)))) := by
  constructor
  · intro uid q n hq
    have hqb : (q == "") = false := by
      simpa using hq
    simp [noteMatches, buildNoteQuery, hqb, Bool.and_eq_true, Bool.or_eq_true,
      beq_iff_eq]
  · intro uid q b hq
    have hqb : (q == "") = false := by
      simpa using hq
    simp [bookmarkMatches, buildBookmarkQuery, hqb, Bool.and_eq_true,
      Bool.or_eq_true, beq_iff_eq, or_assoc]

/-- C6 witness: the spec example, a term matching a title
case-insensitively, evaluated on a concrete note and bookmark. -/
theorem claim_C6_witness :
    noteMatches (buildNoteQuery 0 (some "meeting") none none)
      ⟨1, 0, "Meeting notes", "agenda", [], false⟩ = true ∧
    bookmarkMatches (buildBookmarkQuery 0 (some "docs") none none)
      ⟨1, 0, "http://x.com", "API Docs", "", [], false⟩ = true := by
  constructor
  · exact (claim_C6.1 0 "meeting" ⟨1, 0, "Meeting notes", "agenda", [], false⟩
      (by decide)).mpr ⟨rfl, Or.inl (by decide)⟩
  · exact (claim_C6.2 0 "docs" ⟨1, 0, "http://x.com", "API Docs", "", [], false⟩
      (by decide)).mpr ⟨rfl, Or.inl (by decide)⟩

/-- C10: an empty free-text parameter, a tags parameter whose cleaned
comma-split list is empty, and a favorite parameter different from the
string true each leave the list query identical to the query with the
parameter absent; and the query with all parameters absent matches
exactly the records owned by the caller. -/
theorem claim_C10 :
    (∀ (uid : Nat) (t f : Option String),
      buildNoteQuery uid (some "") t f = buildNoteQuery uid none t f) ∧
    (∀ (uid : Nat) (q f : Option String) (ts : String), tagsParamList ts = [] →
      buildNoteQuery uid q (some ts) f = buildNoteQuery uid q none f) ∧
    (∀ (uid : Nat) (q t : Option String) (fv : String), fv ≠ "true" →
      buildNoteQuery uid q t (some fv) = buildNoteQuery uid q t none) ∧
    (∀ (uid : Nat) (n : StoredNote),
      noteMatches (buildNoteQuery uid none none none) n = true ↔ n.user = uid) ∧
    (∀ (uid : Nat) (t f : Option String),
      buildBookmarkQuery uid (some "") t f = buildBookmarkQuery uid none t f) ∧
    (∀ (uid : Nat) (q f : Option String) (ts : String), tagsParamList ts = [] →
      buildBookmarkQuery uid q (some ts) f = buildBookmarkQuery uid q none f) ∧
    (∀ (uid : Nat) (q t : Option String) (fv : String), fv ≠ "true" →
      buildBookmarkQuery uid q t (some fv) = buildBookmarkQuery uid q t none) ∧
    (∀ (uid : Nat) (b : StoredBookmark),
      bookmarkMatches (buildBookmarkQuery uid none none none) b = true ↔
        b.user = uid) := by
  refine ⟨fun uid t f => rfl, ?_, ?_, ?_, fun uid t f => rfl, ?_, ?_, ?_⟩
  · intro uid q f ts h
    by_cases hts : ts = "" <;> simp [buildNoteQuery, h, hts]
  · intro uid q t fv hfv
    have : (fv == "true") = false := by simpa using hfv
    simp [buildNoteQuery, this]
  · intro uid n
    simp [noteMatches, buildNoteQuery, beq_iff_eq]
  · intro uid q f ts h
    by_cases hts : ts = "" <;> simp [buildBookmarkQuery, h, hts]
  · intro uid q t fv hfv
    have : (fv == "true") = false := by simpa using hfv
    simp [buildBookmarkQuery, this]
  · intro uid b
    simp [bookmarkMatches, buildBookmarkQuery, beq_iff_eq]

/-- C10 witness: the degenerate parameters evaluated concretely — empty
term, a tags parameter of commas and blanks, favorite equal to the
string false — against the all-absent query and a concrete record. -/
theorem claim_C10_witness :
    buildNoteQuery 0 (some "") (some ",, ,") (some "false") =
      buildNoteQuery 0 none none none ∧
    noteMatches (buildNoteQuery 1 none none none) ⟨3, 1, "t", "c", [], false⟩ =
      true := by
  constructor
  · exact (claim_C10.1 0 (some ",, ,") (some "false")).trans
      ((claim_C10.2.1 0 none (some "false") ",, ," (by decide)).trans
        (claim_C10.2.2.1 0 none none "false" (by decide)))
  · exact (claim_C10.2.2.2.1 1 ⟨3, 1, "t", "c", [], false⟩).mpr rfl

/-- C7: creating a note without content answers 400 with no record
persisted, and creating a bookmark whose trimmed url fails the
http(s) pattern — any such url, ftp://x.com being one instance —
answers 400 with no record persisted: the store is returned
unchanged, no body is produced, and the metadata fetcher is not
invoked; both guards sit before any storage call. -/
theorem claim_C7 :
    (∀ (db : List StoredNote) (uid newId : Nat) (r : NoteCreateReq),
      r.content = none →
      (noteCreate db uid newId r).status = 400 ∧
      (noteCreate db uid newId r).db = db ∧
      (noteCreate db uid newId r).body = none) ∧
    (∀ (db : List StoredBookmark) (uid newId : Nat) (r : BookmarkCreateReq)
      (page : FetchOutcome) (u : String), r.url = some u →
      urlPatternTest (jsTrim u) = false →
      (bookmarkCreate db uid newId r page).status = 400 ∧
      (bookmarkCreate db uid newId r page).db = db ∧
      (bookmarkCreate db uid newId r page).body = none ∧
      (bookmarkCreate db uid newId r page).fetchInvoked = false) := by
  constructor
  · intro db uid newId r hc
    simp only [noteCreate, hc]
    by_cases h : optStrBlank r.title = true
    · rw [if_pos h]
      exact ⟨rfl, rfl, rfl⟩
    · rw [if_neg h, if_pos (show optStrBlank none = true from rfl)]
      exact ⟨rfl, rfl, rfl⟩
  · intro db uid newId r page u hu hp
    rcases r with ⟨url, title, desc, tags, fav⟩
    simp only at hu
    subst hu
    cases hb : strBlank u with
    | true => simp [bookmarkCreate, hb]
    | false => simp [bookmarkCreate, hb, hp]

/-- C7 witness: a concrete note create without content and a concrete
bookmark create with an ftp url, both answered 400 over an empty store. -/
theorem claim_C7_witness :
    (noteCreate [] 3 9 ⟨some "T", none, .absent, none⟩).status = 400 ∧
    (bookmarkCreate [] 3 9 ⟨some "ftp://x.com", none, none, .absent, none⟩
      .failure).status = 400 := by
  exact ⟨(claim_C7.1 [] 3 9 ⟨some "T", none, .absent, none⟩ rfl).1,
    (claim_C7.2 [] 3 9 ⟨some "ftp://x.com", none, none, .absent, none⟩
      .failure "ftp://x.com" rfl (by decide)).1⟩

theorem checkUpdField_ok (msg : String) (o : Option String)
    (h : ∀ t, o = some t → strBlank t = false) :
    ∃ v, checkUpdField msg o = .ok v := by
  cases o with
  | none => exact ⟨none, rfl⟩
  | some t =>
    refine ⟨some (jsTrim t), ?_⟩
    simp [checkUpdField, h t rfl]

theorem checkUrlField_ok (o : Option String)
    (h : ∀ u, o = some u → strBlank u = false ∧ urlPatternTest (jsTrim u) = true) :
    ∃ v, checkUrlField o = .ok v := by
  cases o with
  | none => exact ⟨none, rfl⟩
  | some u =>
    obtain ⟨h1, h2⟩ := h u rfl
    refine ⟨some (jsTrim u), ?_⟩
    simp [checkUrlField, h1, h2]

theorem noteGet_status (db : List StoredNote) (uid : Nat) (rid : ReqId) :
    (noteGet db uid rid).status = 400 ∨ (noteGet db uid rid).status = 404 ∨
      (noteGet db uid rid).status = 200 := by
  cases rid with
  | malformed => exact Or.inl rfl
  | valid i =>
    cases h : db.find? (noteOwnedFilter i uid) with
    | none => exact Or.inr (Or.inl (by simp [noteGet, h]))
    | some n => exact Or.inr (Or.inr (by simp [noteGet, h]))

theorem noteDelete_status (db : List StoredNote) (uid : Nat) (rid : ReqId) :
    (noteDelete db uid rid).status = 400 ∨ (noteDelete db uid rid).status = 404 ∨
      (noteDelete db uid rid).status = 200 := by
  cases rid with
  | malformed => exact Or.inl rfl
  | valid i =>
    cases h : db.find? (noteOwnedFilter i uid) with
    | none => exact Or.inr (Or.inl (by simp [noteDelete, h]))
    | some n => exact Or.inr (Or.inr (by simp [noteDelete, h]))

theorem noteUpdate_status (db : List StoredNote) (uid : Nat) (rid : ReqId)
    (r : NoteUpdateReq) :
    (noteUpdate db uid rid r).status = 400 ∨ (noteUpdate db uid rid r).status = 404 ∨
      (noteUpdate db uid rid r).status = 200 := by
  cases h1 : checkUpdField "Title is required" r.title with
  | error e => exact Or.inl (by simp [noteUpdate, h1])
  | ok ut =>
    cases h2 : checkUpdField "Content is required" r.content with
    | error e => exact Or.inl (by simp [noteUpdate, h1, h2])
    | ok uc =>
      cases rid with
      | malformed => exact Or.inl (by simp [noteUpdate, h1, h2])
      | valid i =>
        simp only [noteUpdate, h1, h2]
        split
        · exact Or.inl rfl
        · cases h3 : db.find? (noteOwnedFilter i uid) with
          | none => exact Or.inr (Or.inl (by simp [h3]))
          | some n => exact Or.inr (Or.inr (by simp [h3]))

theorem bookmarkGet_status (db : List StoredBookmark) (uid : Nat) (rid : ReqId) :
    (bookmarkGet db uid rid).status = 400 ∨ (bookmarkGet db uid rid).status = 404 ∨
      (bookmarkGet db uid rid).status = 200 := by
  cases rid with
  | malformed => exact Or.inl rfl
  | valid i =>
    cases h : db.find? (bmOwnedFilter i uid) with
    | none => exact Or.inr (Or.inl (by simp [bookmarkGet, h]))
    | some b => exact Or.inr (Or.inr (by simp [bookmarkGet, h]))

theorem bookmarkDelete_status (db : List StoredBookmark) (uid : Nat) (rid : ReqId) :
    (bookmarkDelete db uid rid).status = 400 ∨
      (bookmarkDelete db uid rid).status = 404 ∨
      (bookmarkDelete db uid rid).status = 200 := by
  cases rid with
  | malformed => exact Or.inl rfl
  | valid i =>
    cases h : db.find? (bmOwnedFilter i uid) with
    | none => exact Or.inr (Or.inl (by simp [bookmarkDelete, h]))
    | some b => exact Or.inr (Or.inr (by simp [bookmarkDelete, h]))

theorem bookmarkUpdate_status (db : List StoredBookmark) (uid : Nat) (rid : ReqId)
    (r : BookmarkUpdateReq) :
    (bookmarkUpdate db uid rid r).status = 400 ∨
      (bookmarkUpdate db uid rid r).status = 404 ∨
      (bookmarkUpdate db uid rid r).status = 200 := by
  cases h1 : checkUrlField r.url with
  | error e => exact Or.inl (by simp [bookmarkUpdate, h1])
  | ok uu =>
    cases rid with
    | malformed => exact Or.inl (by simp [bookmarkUpdate, h1])
    | valid i =>
      simp only [bookmarkUpdate, h1]
      split
      · exact Or.inl rfl
      · cases h3 : db.find? (bmOwnedFilter i uid) with
        | none => exact Or.inr (Or.inl (by simp [h3]))
        | some b => exact Or.inr (Or.inr (by simp [h3]))

theorem checkUpdField_none_inv (msg : String) (v : Option String)
    (h : checkUpdField msg none = .ok v) : v = none := by
  simp [checkUpdField] at h
  exact h.symm

theorem checkUpdField_some_inv (msg t : String) (v : Option String)
    (h : checkUpdField msg (some t) = .ok v) : v = some (jsTrim t) := by
  by_cases hb : strBlank t = true <;> simp [checkUpdField, hb] at h
  exact h.symm

theorem checkUrlField_none_inv (v : Option String)
    (h : checkUrlField none = .ok v) : v = none := by
  simp [checkUrlField] at h
  exact h.symm

theorem checkUrlField_some_inv (u : String) (v : Option String)
    (h : checkUrlField (some u) = .ok v) : v = some (jsTrim u) := by
  by_cases hb : strBlank u = true
  · simp [checkUrlField, hb] at h
  · by_cases hp : urlPatternTest (jsTrim u) = true <;>
      simp [checkUrlField, hb, hp] at h
    exact h.symm

theorem overMax_le (n : Nat) (o : Option String)
    (h : ∀ t, o = some t → t.length ≤ n) : overMax n o = false := by
  cases o with
  | none => rfl
  | some t =>
    simp only [overMax, decide_eq_false_iff_not, Nat.not_lt]
    exact h t rfl

theorem noteUpdate_404 (db : List StoredNote) (uid i : Nat) (r : NoteUpdateReq)
    (hown : ∀ n ∈ db, n.id = i → n.user ≠ uid)
    (ht : ∀ t, r.title = some t → strBlank t = false ∧ (jsTrim t).length ≤ 200)
    (hc : ∀ c, r.content = some c → strBlank c = false) :
    (noteUpdate db uid (.valid i) r).status = 404 := by
  have hf := find_none_notes db i uid hown
  obtain ⟨ut, hut⟩ := checkUpdField_ok "Title is required" r.title
    (fun t h => (ht t h).1)
  obtain ⟨uc, huc⟩ := checkUpdField_ok "Content is required" r.content hc
  have hov : overMax 200 ut = false := by
    apply overMax_le
    intro t2 ht2
    cases hrt : r.title with
    | none =>
      rw [hrt] at hut
      rw [checkUpdField_none_inv _ _ hut] at ht2
      cases ht2
    | some t =>
      rw [hrt] at hut
      rw [checkUpdField_some_inv _ _ _ hut] at ht2
      cases ht2
      exact (ht t hrt).2
  simp [noteUpdate, hut, huc, hov, hf]

theorem bookmarkUpdate_404 (db : List StoredBookmark) (uid i : Nat)
    (r : BookmarkUpdateReq) (hown : ∀ b ∈ db, b.id = i → b.user ≠ uid)
    (hu : ∀ u, r.url = some u → strBlank u = false ∧ urlPatternTest (jsTrim u) = true)
    (ht : ∀ t, r.title = some t → (if t == "" then "" else jsTrim t).length ≤ 200)
    (hd : ∀ d, r.description = some d →
      (if d == "" then "" else jsTrim d).length ≤ 500) :
    (bookmarkUpdate db uid (.valid i) r).status = 404 := by
  have hf := find_none_bms db i uid hown
  obtain ⟨uu, huu⟩ := checkUrlField_ok r.url hu
  have hovt : overMax 200
      (r.title.map (fun t => if t == "" then "" else jsTrim t)) = false := by
    apply overMax_le
    intro t2 ht2
    cases hrt : r.title with
    | none => rw [hrt] at ht2; cases ht2
    | some t =>
      rw [hrt] at ht2
      simp only [Option.map_some', Option.some.injEq] at ht2
      subst ht2
      exact ht t hrt
  have hovd : overMax 500
      (r.description.map (fun d => if d == "" then "" else jsTrim d)) = false := by
    apply overMax_le
    intro d2 hd2
    cases hrd : r.description with
    | none => rw [hrd] at hd2; cases hd2
    | some d =>
      rw [hrd] at hd2
      simp only [Option.map_some', Option.some.injEq] at hd2
      subst hd2
      exact hd d hrd
  simp only [bookmarkUpdate, huu]
  rw [hovt, hovd]
  simp [hf]

/-- C1 counterexample: a note update whose body fails validation (a
present blank title) aimed by well-formed id at a record owned by a
different user (record owner 2, caller 1) answers 400 from validation,
not the 404 the claim requires of every such update request. -/
theorem claim_C1_counterexample :
    (noteUpdate [⟨5, 2, "t", "c", [], false⟩] 1 (.valid 5)
      ⟨some "", none, none, none⟩).status = 400 ∧ (400 : Nat) ≠ 404 := by
  exact ⟨rfl, by decide⟩

/-- C1 amended: with a well-formed id naming no record owned by the
caller (foreign-owned or nonexistent), get and delete answer 404
unconditionally, and update answers 404 whenever its body passes both
route field validation and the schema validators that runValidators
re-runs (maxlength 200 on titles, 500 on bookmark descriptions); a
failing validation of either kind answers 400 before the ownership
lookup.  In all cases, for all inputs, none of the six handlers ever
answers 403, so a foreign record is indistinguishable from a missing
one. -/
theorem claim_C1_amended :
    (∀ (db : List StoredNote) (uid i : Nat),
      (∀ n ∈ db, n.id = i → n.user ≠ uid) →
      (noteGet db uid (.valid i)).status = 404 ∧
      (noteDelete db uid (.valid i)).status = 404) ∧
    (∀ (db : List StoredNote) (uid i : Nat) (r : NoteUpdateReq),
      (∀ n ∈ db, n.id = i → n.user ≠ uid) →
      (∀ t, r.title = some t → strBlank t = false ∧ (jsTrim t).length ≤ 200) →
      (∀ c, r.content = some c → strBlank c = false) →
      (noteUpdate db uid (.valid i) r).status = 404) ∧
    (∀ (db : List StoredBookmark) (uid i : Nat),
      (∀ b ∈ db, b.id = i → b.user ≠ uid) →
      (bookmarkGet db uid (.valid i)).status = 404 ∧
      (bookmarkDelete db uid (.valid i)).status = 404) ∧
    (∀ (db : List StoredBookmark) (uid i : Nat) (r : BookmarkUpdateReq),
      (∀ b ∈ db, b.id = i → b.user ≠ uid) →
      (∀ u, r.url = some u → strBlank u = false ∧ urlPatternTest (jsTrim u) = true) →
      (∀ t, r.title = some t → (if t == "" then "" else jsTrim t).length ≤ 200) →
      (∀ d, r.description = some d →
        (if d == "" then "" else jsTrim d).length ≤ 500) →
      (bookmarkUpdate db uid (.valid i) r).status = 404) ∧
    (∀ (db : List StoredNote) (uid : Nat) (rid : ReqId) (r : NoteUpdateReq),
      (noteGet db uid rid).status ≠ 403 ∧ (noteDelete db uid rid).status ≠ 403 ∧
      (noteUpdate db uid rid r).status ≠ 403) ∧
    (∀ (db : List StoredBookmark) (uid : Nat) (rid : ReqId) (r : BookmarkUpdateReq),
      (bookmarkGet db uid rid).status ≠ 403 ∧
      (bookmarkDelete db uid rid).status ≠ 403 ∧
      (bookmarkUpdate db uid rid r).status ≠ 403) := by
  refine ⟨?_, ?_, ?_, ?_, ?_, ?_⟩
  · intro db uid i h
    have hf := find_none_notes db i uid h
    exact ⟨by simp [noteGet, hf], by simp [noteDelete, hf]⟩
  · intro db uid i r h ht hc
    exact noteUpdate_404 db uid i r h ht hc
  · intro db uid i h
    have hf := find_none_bms db i uid h
    exact ⟨by simp [bookmarkGet, hf], by simp [bookmarkDelete, hf]⟩
  · intro db uid i r h hu ht hd
    exact bookmarkUpdate_404 db uid i r h hu ht hd
  · intro db uid rid r
    refine ⟨?_, ?_, ?_⟩
    · rcases noteGet_status db uid rid with h | h | h <;> rw [h] <;> decide
    · rcases noteDelete_status db uid rid with h | h | h <;> rw [h] <;> decide
    · rcases noteUpdate_status db uid rid r with h | h | h <;> rw [h] <;> decide
  · intro db uid rid r
    refine ⟨?_, ?_, ?_⟩
    · rcases bookmarkGet_status db uid rid with h | h | h <;> rw [h] <;> decide
    · rcases bookmarkDelete_status db uid rid with h | h | h <;> rw [h] <;> decide
    · rcases bookmarkUpdate_status db uid rid r with h | h | h <;> rw [h] <;> decide

/-- C1 witness: the amended statement evaluated on a concrete store
holding one record of user 2, requested by user 1 with the id of that
record: get, delete, and a validation-passing update all answer 404. -/
theorem claim_C1_witness :
    (noteGet [⟨5, 2, "t", "c", [], false⟩] 1 (.valid 5)).status = 404 ∧
    (noteDelete [⟨5, 2, "t", "c", [], false⟩] 1 (.valid 5)).status = 404 ∧
    (noteUpdate [⟨5, 2, "t", "c", [], false⟩] 1 (.valid 5)
      ⟨some "New", none, none, none⟩).status = 404 ∧
    (bookmarkUpdate [⟨5, 2, "http://a.io", "t", "", [], false⟩] 1 (.valid 5)
      ⟨some "http://b.io", none, none, none, none⟩).status = 404 := by
  refine ⟨(claim_C1_amended.1 _ 1 5 (by decide)).1,
    (claim_C1_amended.1 _ 1 5 (by decide)).2,
    claim_C1_amended.2.1 _ 1 5 _ (by decide) ?_ ?_,
    claim_C1_amended.2.2.2.1 _ 1 5 _ (by decide) ?_ ?_ ?_⟩
  · intro t ht
    cases ht
    exact ⟨by decide, by decide⟩
  · intro c hc
    cases hc
  · intro u hu
    cases hu
    exact ⟨by decide, by decide⟩
  · intro t ht
    cases ht
  · intro d hd
    cases hd

/-- C8 counterexample: a get-one request with a malformed id is
answered 400 (the CastError branch labels the id invalid), not the
uniform 404 the claim asserts for every non-match. -/
theorem claim_C8_counterexample :
    (noteGet [] 0 .malformed).status = 400 ∧
    (noteGet [] 0 .malformed).error = some "Invalid note ID" ∧
    (400 : Nat) ≠ 404 := by
  exact ⟨rfl, rfl, by decide⟩

/-- C8 amended: non-matches split into two uniform classes across all
six get-one, update, and delete handlers: a well-formed id naming no
record owned by the caller (wrong owner or nonexistent) answers 404 —
for updates whenever the body passes route and schema validation,
which otherwise answers 400 first — while a malformed id answers 400
via the CastError branch of every handler. -/
theorem claim_C8_amended :
    (∀ (db : List StoredNote) (uid : Nat),
      (noteGet db uid .malformed).status = 400 ∧
      (noteDelete db uid .malformed).status = 400) ∧
    (∀ (db : List StoredNote) (uid : Nat) (r : NoteUpdateReq),
      (noteUpdate db uid .malformed r).status = 400) ∧
    (∀ (db : List StoredBookmark) (uid : Nat),
      (bookmarkGet db uid .malformed).status = 400 ∧
      (bookmarkDelete db uid .malformed).status = 400) ∧
    (∀ (db : List StoredBookmark) (uid : Nat) (r : BookmarkUpdateReq),
      (bookmarkUpdate db uid .malformed r).status = 400) ∧
    (∀ (db : List StoredNote) (uid i : Nat),
      (∀ n ∈ db, n.id = i → n.user ≠ uid) →
      (noteGet db uid (.valid i)).status = 404 ∧
      (noteDelete db uid (.valid i)).status = 404) ∧
    (∀ (db : List StoredBookmark) (uid i : Nat),
      (∀ b ∈ db, b.id = i → b.user ≠ uid) →
      (bookmarkGet db uid (.valid i)).status = 404 ∧
      (bookmarkDelete db uid (.valid i)).status = 404) ∧
    (∀ (db : List StoredNote) (uid i : Nat) (r : NoteUpdateReq),
      (∀ n ∈ db, n.id = i → n.user ≠ uid) →
      (∀ t, r.title = some t → strBlank t = false ∧ (jsTrim t).length ≤ 200) →
      (∀ c, r.content = some c → strBlank c = false) →
      (noteUpdate db uid (.valid i) r).status = 404) ∧
    (∀ (db : List StoredBookmark) (uid i : Nat) (r : BookmarkUpdateReq),
      (∀ b ∈ db, b.id = i → b.user ≠ uid) →
      (∀ u, r.url = some u → strBlank u = false ∧ urlPatternTest (jsTrim u) = true) →
      (∀ t, r.title = some t → (if t == "" then "" else jsTrim t).length ≤ 200) →
      (∀ d, r.description = some d →
        (if d == "" then "" else jsTrim d).length ≤ 500) →
      (bookmarkUpdate db uid (.valid i) r).status = 404) := by
  refine ⟨fun db uid => ⟨rfl, rfl⟩, ?_, fun db uid => ⟨rfl, rfl⟩, ?_, ?_, ?_,
    fun db uid i r hown ht hc => noteUpdate_404 db uid i r hown ht hc,
    fun db uid i r hown hu ht hd => bookmarkUpdate_404 db uid i r hown hu ht hd⟩
  · intro db uid r
    cases h1 : checkUpdField "Title is required" r.title with
    | error e => simp [noteUpdate, h1]
    | ok ut =>
      cases h2 : checkUpdField "Content is required" r.content with
      | error e => simp [noteUpdate, h1, h2]
      | ok uc => simp [noteUpdate, h1, h2]
  · intro db uid r
    cases h1 : checkUrlField r.url with
    | error e => simp [bookmarkUpdate, h1]
    | ok uu => simp [bookmarkUpdate, h1]
  · intro db uid i h
    have hf := find_none_notes db i uid h
    exact ⟨by simp [noteGet, hf], by simp [noteDelete, hf]⟩
  · intro db uid i h
    have hf := find_none_bms db i uid h
    exact ⟨by simp [bookmarkGet, hf], by simp [bookmarkDelete, hf]⟩

/-- C8 witness: the amended statement evaluated concretely — malformed
ids answered 400 by update handlers, a nonexistent id answered 404. -/
theorem claim_C8_witness :
    (noteUpdate [] 0 .malformed ⟨none, none, none, none⟩).status = 400 ∧
    (bookmarkUpdate [] 0 .malformed ⟨none, none, none, none, none⟩).status = 400 ∧
    (noteGet [] 7 (.valid 1)).status = 404 ∧
    (noteUpdate [⟨1, 2, "t", "c", [], false⟩] 7 (.valid 1)
      ⟨some "New", none, none, none⟩).status = 404 := by
  refine ⟨claim_C8_amended.2.1 [] 0 ⟨none, none, none, none⟩,
    claim_C8_amended.2.2.2.1 [] 0 ⟨none, none, none, none, none⟩,
    (claim_C8_amended.2.2.2.2.1 [] 7 1 (by decide)).1,
    claim_C8_amended.2.2.2.2.2.2.1 _ 7 1 _ (by decide) ?_ ?_⟩
  · intro t ht
    cases ht
    exact ⟨by decide, by decide⟩
  · intro c hc
    cases hc

theorem titleChain_eq (d : PageDoc) :
    (candidateTitles d).find? (fun s => !(s == "")) =
      (if titleChain d == "" then none else some (titleChain d)) := by
  obtain ⟨og, tw, tt, h1⟩ := d
  simp only [candidateTitles, titleChain, jsOrStr]
  rcases og with _ | so
  · rcases tw with _ | st
    · cases htt : (tt == "") <;> cases hh1 : (h1 == "") <;>
        simp [List.find?, htt, hh1]
    · cases hst : (st == "") <;> cases htt : (tt == "") <;>
        cases hh1 : (h1 == "") <;> simp [List.find?, hst, htt, hh1]
  · rcases tw with _ | st
    · cases hso : (so == "") <;> cases htt : (tt == "") <;>
        cases hh1 : (h1 == "") <;> simp [List.find?, hso, htt, hh1]
    · cases hso : (so == "") <;> cases hst : (st == "") <;>
        cases htt : (tt == "") <;> cases hh1 : (h1 == "") <;>
        simp [List.find?, hso, hst, htt, hh1]

/-- C4 counterexample: a page whose Open-Graph title attribute is a
single space while its title element reads Real Title makes the
fetcher return null: the whitespace-only attribute is truthy, wins the
priority chain, cleans to the empty string, and the later non-empty
candidates are never consulted — contradicting the claim that the
result is null only when no non-empty candidate exists. -/
theorem claim_C4_counterexample :
    fetchMetadata (.success ⟨some " ", none, "Real Title", ""⟩) = none ∧
    "Real Title" ∈ candidateTitles ⟨some " ", none, "Real Title", ""⟩ ∧
    ("Real Title" : String) ≠ "" ∧
    cleanTitle "Real Title" = "Real Title" ∧
    (candidateTitles ⟨some " ", none, "Real Title", ""⟩).find?
      (fun s => !(s == "")) = some " " := by
  exact ⟨by decide, by decide, by decide, by decide, by decide⟩

/-- C4 amended: the fetcher returns none on any fetch or parse failure
(errors are absorbed, never propagated), and on success it selects the
first non-empty candidate in priority order (Open-Graph title, Twitter
title, title element, first heading), cleans it by trimming and
collapsing whitespace runs, and returns it unless the cleaned value is
empty — a whitespace-only winning candidate therefore also yields
none, even when a later candidate is non-empty; none is returned when
every candidate is empty. -/
theorem claim_C4_amended :
    fetchMetadata .failure = none ∧
    (∀ d : PageDoc, fetchMetadata (.success d) =
      match (candidateTitles d).find? (fun s => !(s == "")) with
      | none => none
      | some t => if cleanTitle t == "" then none else some (cleanTitle t)) := by
  refine ⟨rfl, ?_⟩
  intro d
  rw [titleChain_eq]
  simp only [fetchMetadata]
  cases hx : (titleChain d == "") with
  | true =>
    have : titleChain d = "" := by simpa using hx
    simp [hx, this]
  | false =>
    simp [hx]

/-- C5 counterexample: with a valid url that carries leading
whitespace and no title, a failing fetch stores the trimmed url as the
title, which differs from the raw url of the request body. -/
theorem claim_C5_counterexample :
    (bookmarkCreate [] 0 1 ⟨some " http://x.com", none, none, .absent, none⟩
      .failure).body.map (fun b => b.title) = some "http://x.com" ∧
    (" http://x.com" : String) ≠ "http://x.com" := by
  exact ⟨by decide, by decide⟩

/-- C5 amended: the metadata fetcher is invoked exactly when the url
passes validation and the supplied title is absent or blank (never
when a non-blank title is supplied, and never when validation fails
first; a later schema-validation failure does not undo the fetch);
when it is invoked and returns null, the bookmark is stored with its
title equal to the trimmed raw url (equal to the stored url field)
provided the document passes schema validation (trimmed url within
the title maxlength of 200, description within 500); a trimmed url
beyond 200 characters makes the fallback title fail schema
validation, answered 400 with nothing persisted. -/
theorem claim_C5_amended :
    (∀ (db : List StoredBookmark) (uid newId : Nat) (r : BookmarkCreateReq)
      (page : FetchOutcome),
      (bookmarkCreate db uid newId r page).fetchInvoked =
        (bmUrlOk r && bmTitleBlank r)) ∧
    (∀ (db : List StoredBookmark) (uid newId : Nat) (r : BookmarkCreateReq)
      (page : FetchOutcome) (u : String), r.url = some u →
      bmUrlOk r = true → bmTitleBlank r = true → fetchMetadata page = none →
      (jsTrim u).length ≤ 200 →
      (∀ d, r.description = some d →
        (if d == "" then "" else jsTrim d).length ≤ 500) →
      ∃ bm, (bookmarkCreate db uid newId r page).body = some bm ∧
        bm.title = jsTrim u ∧ bm.url = jsTrim u) ∧
    (∀ (db : List StoredBookmark) (uid newId : Nat) (r : BookmarkCreateReq)
      (page : FetchOutcome) (u : String), r.url = some u →
      bmUrlOk r = true → bmTitleBlank r = true → fetchMetadata page = none →
      (jsTrim u).length > 200 →
      (bookmarkCreate db uid newId r page).status = 400 ∧
      (bookmarkCreate db uid newId r page).db = db ∧
      (bookmarkCreate db uid newId r page).body = none) := by
  refine ⟨?_, ?_, ?_⟩
  · intro db uid newId r page
    rcases r with ⟨url, title, desc, tags, fav⟩
    rcases url with _ | u
    · rfl
    · cases hb : strBlank u with
      | true => simp [bookmarkCreate, bmUrlOk, bmTitleBlank, hb]
      | false =>
        cases hp : urlPatternTest (jsTrim u) with
        | false => simp [bookmarkCreate, bmUrlOk, bmTitleBlank, hb, hp]
        | true =>
          simp only [bookmarkCreate, bmUrlOk, bmTitleBlank, hb, hp,
            Bool.not_false, Bool.not_true, Bool.true_and, Bool.false_eq_true,
            reduceIte]
          (repeat' split) <;> rfl
  · intro db uid newId r page u hu hok hblank hfetch hlen hdesc
    rcases r with ⟨url, title, desc, tags, fav⟩
    simp only at hu
    subst hu
    simp only [bmUrlOk, Bool.and_eq_true, Bool.not_eq_true'] at hok
    obtain ⟨hb, hp⟩ := hok
    simp only [bmTitleBlank] at hblank
    have hno : ¬(200 < (jsTrim u).length) := Nat.not_lt.mpr hlen
    have h0 : ¬(500 < ("" : String).length) := by decide
    rcases desc with _ | d
    · refine ⟨{ id := newId, user := uid, url := jsTrim u, title := jsTrim u,
                description := "", tags := normalizeTags tags,
                isFavorite := fav.getD false }, ?_, rfl, rfl⟩
      simp [bookmarkCreate, hb, hp, hblank, hfetch, hno, h0]
    · by_cases hd0 : d = ""
      · subst hd0
        refine ⟨{ id := newId, user := uid, url := jsTrim u, title := jsTrim u,
                  description := "", tags := normalizeTags tags,
                  isFavorite := fav.getD false }, ?_, rfl, rfl⟩
        simp [bookmarkCreate, hb, hp, hblank, hfetch, hno, h0]
      · have hdl : ¬(500 < (jsTrim d).length) := by
          have hh := hdesc d rfl
          rw [if_neg (by simpa using hd0)] at hh
          exact Nat.not_lt.mpr hh
        refine ⟨{ id := newId, user := uid, url := jsTrim u, title := jsTrim u,
                  description := jsTrim d, tags := normalizeTags tags,
                  isFavorite := fav.getD false }, ?_, rfl, rfl⟩
        simp [bookmarkCreate, hb, hp, hblank, hfetch, hno, hdl, hd0]
  · intro db uid newId r page u hu hok hblank hfetch hlong
    rcases r with ⟨url, title, desc, tags, fav⟩
    simp only at hu
    subst hu
    simp only [bmUrlOk, Bool.and_eq_true, Bool.not_eq_true'] at hok
    obtain ⟨hb, hp⟩ := hok
    simp only [bmTitleBlank] at hblank
    refine ⟨?_, ?_, ?_⟩ <;> simp [bookmarkCreate, hb, hp, hblank, hfetch, hlong]

/-- C5 witness: a concrete create with a valid url, no title, and a
failed fetch stores the url as the title. -/
theorem claim_C5_witness :
    ∃ bm, (bookmarkCreate [] 0 1 ⟨some "http://x.com", none, none, .absent, none⟩
      .failure).body = some bm ∧ bm.title = jsTrim "http://x.com" ∧
      bm.url = jsTrim "http://x.com" :=
  claim_C5_amended.2.1 [] 0 1 ⟨some "http://x.com", none, none, .absent, none⟩
    .failure "http://x.com" rfl (by decide) rfl rfl (by decide)
    (fun d h => by cases h)

theorem noteUpdate_body (db : List StoredNote) (uid : Nat) (rid : ReqId)
    (r : NoteUpdateReq) (n2 : StoredNote)
    (hbody : (noteUpdate db uid rid r).body = some n2) :
    ∃ i n ut uc, rid = .valid i ∧ db.find? (noteOwnedFilter i uid) = some n ∧
      checkUpdField "Title is required" r.title = .ok ut ∧
      checkUpdField "Content is required" r.content = .ok uc ∧
      n2 = { n with title := ut.getD n.title, content := uc.getD n.content,
                    tags := (r.tags.map normalizeTags).getD n.tags,
                    isFavorite := r.isFavorite.getD n.isFavorite } := by
  cases h1 : checkUpdField "Title is required" r.title with
  | error e => simp [noteUpdate, h1] at hbody
  | ok ut =>
    cases h2 : checkUpdField "Content is required" r.content with
    | error e => simp [noteUpdate, h1, h2] at hbody
    | ok uc =>
      cases rid with
      | malformed => simp [noteUpdate, h1, h2] at hbody
      | valid i =>
        simp only [noteUpdate, h1, h2] at hbody
        split at hbody
        · simp at hbody
        · cases hf : db.find? (noteOwnedFilter i uid) with
          | none => rw [hf] at hbody; simp at hbody
          | some n =>
            rw [hf] at hbody
            simp only [Option.some.injEq] at hbody
            exact ⟨i, n, ut, uc, rfl, hf, rfl, rfl, hbody.symm⟩

theorem bookmarkUpdate_body (db : List StoredBookmark) (uid : Nat) (rid : ReqId)
    (r : BookmarkUpdateReq) (b2 : StoredBookmark)
    (hbody : (bookmarkUpdate db uid rid r).body = some b2) :
    ∃ i b uu, rid = .valid i ∧ db.find? (bmOwnedFilter i uid) = some b ∧
      checkUrlField r.url = .ok uu ∧
      b2 = { b with url := uu.getD b.url,
                    title := (r.title.map
                      (fun t => if t == "" then "" else jsTrim t)).getD b.title,
                    description := (r.description.map
                      (fun d => if d == "" then "" else jsTrim d)).getD b.description,
                    tags := (r.tags.map normalizeTags).getD b.tags,
                    isFavorite := r.isFavorite.getD b.isFavorite } := by
  cases h1 : checkUrlField r.url with
  | error e => simp [bookmarkUpdate, h1] at hbody
  | ok uu =>
    cases rid with
    | malformed => simp [bookmarkUpdate, h1] at hbody
    | valid i =>
      simp only [bookmarkUpdate, h1] at hbody
      split at hbody
      · simp at hbody
      · cases hf : db.find? (bmOwnedFilter i uid) with
        | none => rw [hf] at hbody; simp at hbody
        | some b =>
          rw [hf] at hbody
          simp only [Option.some.injEq] at hbody
          exact ⟨i, b, uu, rfl, hf, rfl, hbody.symm⟩

/-- C9: an update applies exactly the fields present in the request body:
whenever an update responds with a record, that record agrees with the
stored record on every absent field and carries the trimmed value of
every present field, with a present tags field re-run through the Tag
Normalizer and a present isFavorite taken as given; a present blank
required field (note title or content, bookmark url, also a present
malformed bookmark url) is re-validated and answers 400 with the store
unchanged. -/
theorem claim_C9 :
    (∀ (db : List StoredNote) (uid : Nat) (rid : ReqId) (r : NoteUpdateReq)
      (n2 : StoredNote), (noteUpdate db uid rid r).body = some n2 →
      ∃ i n, rid = .valid i ∧ db.find? (noteOwnedFilter i uid) = some n ∧
        n2.id = n.id ∧ n2.user = n.user ∧
        (r.title = none → n2.title = n.title) ∧
        (∀ t, r.title = some t → n2.title = jsTrim t) ∧
        (r.content = none → n2.content = n.content) ∧
        (∀ c, r.content = some c → n2.content = jsTrim c) ∧
        (r.tags = none → n2.tags = n.tags) ∧
        (∀ ti, r.tags = some ti → n2.tags = normalizeTags ti) ∧
        (r.isFavorite = none → n2.isFavorite = n.isFavorite) ∧
        (∀ fb, r.isFavorite = some fb → n2.isFavorite = fb)) ∧
    (∀ (db : List StoredNote) (uid : Nat) (rid : ReqId) (r : NoteUpdateReq)
      (t : String),
      ((r.title = some t ∨ r.content = some t) ∧ strBlank t = true) →
      (noteUpdate db uid rid r).status = 400 ∧ (noteUpdate db uid rid r).db = db) ∧
    (∀ (db : List StoredBookmark) (uid : Nat) (rid : ReqId)
      (r : BookmarkUpdateReq) (b2 : StoredBookmark),
      (bookmarkUpdate db uid rid r).body = some b2 →
      ∃ i b, rid = .valid i ∧ db.find? (bmOwnedFilter i uid) = some b ∧
        b2.id = b.id ∧ b2.user = b.user ∧
        (r.url = none → b2.url = b.url) ∧
        (∀ u, r.url = some u → b2.url = jsTrim u) ∧
        (r.title = none → b2.title = b.title) ∧
        (∀ t, r.title = some t → b2.title = (if t == "" then "" else jsTrim t)) ∧
        (r.description = none → b2.description = b.description) ∧
        (∀ d, r.description = some d →
          b2.description = (if d == "" then "" else jsTrim d)) ∧
        (r.tags = none → b2.tags = b.tags) ∧
        (∀ ti, r.tags = some ti → b2.tags = normalizeTags ti) ∧
        (r.isFavorite = none → b2.isFavorite = b.isFavorite) ∧
        (∀ fb, r.isFavorite = some fb → b2.isFavorite = fb)) ∧
    (∀ (db : List StoredBookmark) (uid : Nat) (rid : ReqId)
      (r : BookmarkUpdateReq) (u : String), r.url = some u →
      (strBlank u = true ∨ urlPatternTest (jsTrim u) = false) →
      (bookmarkUpdate db uid rid r).status = 400 ∧
      (bookmarkUpdate db uid rid r).db = db) := by
  refine ⟨?_, ?_, ?_, ?_⟩
  · intro db uid rid r n2 hbody
    obtain ⟨i, n, ut, uc, hrid, hf, h1, h2, hn2⟩ :=
      noteUpdate_body db uid rid r n2 hbody
    subst hrid
    subst hn2
    obtain ⟨nid, nuser, ntitle, ncontent, ntags, nfav⟩ := n
    refine ⟨i, _, rfl, hf, rfl, rfl, ?_, ?_, ?_, ?_, ?_, ?_, ?_, ?_⟩
    · intro h
      rw [h] at h1
      rw [checkUpdField_none_inv _ _ h1]
      rfl
    · intro t h
      rw [h] at h1
      rw [checkUpdField_some_inv _ _ _ h1]
      rfl
    · intro h
      rw [h] at h2
      rw [checkUpdField_none_inv _ _ h2]
      rfl
    · intro c h
      rw [h] at h2
      rw [checkUpdField_some_inv _ _ _ h2]
      rfl
    · intro h
      simp [h]
    · intro ti h
      simp [h]
    · intro h
      simp [h]
    · intro fb h
      simp [h]
  · intro db uid rid r t hyp
    obtain ⟨hor, hb⟩ := hyp
    rcases hor with ht | hc
    · constructor <;> simp [noteUpdate, checkUpdField, ht, hb]
    · cases h1 : checkUpdField "Title is required" r.title with
      | error e => constructor <;> simp [noteUpdate, h1]
      | ok ut =>
        constructor <;> simp only [noteUpdate, h1] <;>
          simp [checkUpdField, hc, hb]
  · intro db uid rid r b2 hbody
    obtain ⟨i, b, uu, hrid, hf, h1, hb2⟩ :=
      bookmarkUpdate_body db uid rid r b2 hbody
    subst hrid
    subst hb2
    obtain ⟨bid, buser, burl, btitle, bdesc, btags, bfav⟩ := b
    refine ⟨i, _, rfl, hf, rfl, rfl, ?_, ?_, ?_, ?_, ?_, ?_, ?_, ?_, ?_, ?_⟩
    · intro h
      rw [h] at h1
      rw [checkUrlField_none_inv _ h1]
      rfl
    · intro u h
      rw [h] at h1
      rw [checkUrlField_some_inv _ _ h1]
      rfl
    · intro h
      simp [h]
    · intro t h
      simp [h]
    · intro h
      simp [h]
    · intro d h
      simp [h]
    · intro h
      simp [h]
    · intro ti h
      simp [h]
    · intro h
      simp [h]
    · intro fb h
      simp [h]
  · intro db uid rid r u hu hyp
    rcases hyp with hb | hp
    · constructor <;> simp [bookmarkUpdate, checkUrlField, hu, hb]
    · by_cases hb : strBlank u = true
      · constructor <;> simp [bookmarkUpdate, checkUrlField, hu, hb]
      · constructor <;> simp [bookmarkUpdate, checkUrlField, hu, hb, hp]

/-- C9 witness: concrete blank-field updates answered 400 with the
store unchanged, and a concrete partial update applying only the
present fields. -/
theorem claim_C9_witness :
    (noteUpdate [] 0 (.valid 1) ⟨some " ", none, none, none⟩).status = 400 ∧
    (bookmarkUpdate [] 0 (.valid 1)
      ⟨some "ftp://y.io", none, none, none, none⟩).status = 400 ∧
    (∃ i n, (ReqId.valid 1 : ReqId) = .valid i ∧
      ([⟨1, 7, "Old", "C", ["x"], false⟩] : List StoredNote).find?
        (noteOwnedFilter i 7) = some n ∧
      (⟨1, 7, "Old", "New", ["a", "b"], false⟩ : StoredNote).id = n.id ∧
      (⟨1, 7, "Old", "New", ["a", "b"], false⟩ : StoredNote).user = n.user ∧
      ((none : Option String) = none →
        (⟨1, 7, "Old", "New", ["a", "b"], false⟩ : StoredNote).title = n.title) ∧
      (∀ t, (none : Option String) = some t →
        (⟨1, 7, "Old", "New", ["a", "b"], false⟩ : StoredNote).title = jsTrim t) ∧
      ((some "New" : Option String) = none →
        (⟨1, 7, "Old", "New", ["a", "b"], false⟩ : StoredNote).content = n.content) ∧
      (∀ c, (some "New" : Option String) = some c →
        (⟨1, 7, "Old", "New", ["a", "b"], false⟩ : StoredNote).content = jsTrim c) ∧
      ((some (.str "a b a") : Option TagsInput) = none →
        (⟨1, 7, "Old", "New", ["a", "b"], false⟩ : StoredNote).tags = n.tags) ∧
      (∀ ti, (some (.str "a b a") : Option TagsInput) = some ti →
        (⟨1, 7, "Old", "New", ["a", "b"], false⟩ : StoredNote).tags =
          normalizeTags ti) ∧
      ((none : Option Bool) = none →
        (⟨1, 7, "Old", "New", ["a", "b"], false⟩ : StoredNote).isFavorite =
          n.isFavorite) ∧
      (∀ fb, (none : Option Bool) = some fb →
        (⟨1, 7, "Old", "New", ["a", "b"], false⟩ : StoredNote).isFavorite = fb)) := by
  refine ⟨(claim_C9.2.1 [] 0 (.valid 1) ⟨some " ", none, none, none⟩ " "
      ⟨Or.inl rfl, by decide⟩).1,
    (claim_C9.2.2.2 [] 0 (.valid 1) ⟨some "ftp://y.io", none, none, none, none⟩
      "ftp://y.io" rfl (Or.inr (by decide))).1,
    claim_C9.1 [⟨1, 7, "Old", "C", ["x"], false⟩] 7 (.valid 1)
      ⟨none, some "New", some (.str "a b a"), none⟩
      ⟨1, 7, "Old", "New", ["a", "b"], false⟩ (by decide)⟩
